import Mathlib

/-!
# Verification of the IFC element-extraction backend

Shallow embedding of `src/backend/src/main.py`: a FastAPI service that loads an
IFC building model once at startup and serves one read endpoint,
`GET /api/elements`, which extracts per-element placement, level membership,
dimensionality and quantity, aggregates per type and level, and returns the
assembled response.

Modelling conventions:
* Python floats are modelled as `ℚ` (the spec speaks of exact sums).
* A Python attribute access that may raise (and is caught by the code) is
  modelled as an `Option` that is `none` in the failing case.
* Python dictionaries (insertion ordered) are modelled as a key list in
  insertion order plus a total lookup function; `defaultdict(float)` lookups
  default to `0`.
* Python truthiness of a string (`if level_name:`) is `none`-or-empty = falsy;
  truthiness of a float (`x or 0.0`) maps `0.0` to the default (identity here).
-/

namespace LeanConIFC

/-- The `is_a` kind of a quantity entry in an `IfcElementQuantity` set
(`IfcQuantityVolume` / `IfcQuantityArea` / `IfcQuantityLength` / anything else). -/
inductive QtyKind where
  | volume
  | area
  | length
  | other
deriving DecidableEq, Repr

/-- One quantity entry `q` of a quantity set.  `value` is the result of
`float(q.VolumeValue)` (resp. Area/Length): `none` models the extraction
raising, which the code catches with `continue`. -/
structure Qty where
  kind : QtyKind
  value : Option ℚ
deriving DecidableEq, Repr

/-- The `RelatingDefinition` of an `IsDefinedBy` relation.
`isElementQuantity` is `rel_def.is_a("IfcElementQuantity")` (with the
`hasattr(rel_def, "is_a")` guard folded in); `quantities` is
`getattr(rel_def, "Quantities", None)` (`none` = attribute missing or `None`). -/
structure RelDef where
  isElementQuantity : Bool
  quantities : Option (List Qty)
deriving DecidableEq, Repr

/-- One relation in `element.IsDefinedBy`.  `relatingDefinition = none` models
`definition.RelatingDefinition` raising (caught with `continue`). -/
structure DefRel where
  relatingDefinition : Option RelDef
deriving DecidableEq, Repr

/-- One geometric representation; `representationType` is
`getattr(rep, "RepresentationType", None)`. -/
structure Rep where
  representationType : Option String
deriving DecidableEq, Repr

/-- A building storey candidate returned by `ifc_element.get_container`. -/
structure Storey where
  isBuildingStorey : Bool
  name : Option String
  elevation : Option ℚ
deriving DecidableEq, Repr

/-- A building element as consumed by the code.
* `typeTag` is `element.is_a()`.
* `objectPlacement`: outer `none` = `ObjectPlacement` missing or falsy; inner
  `none` = the coordinate chain `RelativePlacement.Location.Coordinates` raising
  (caught, yielding `None`); `some (x, y, z)` = the extracted coordinates.
* `container` is the result of `ifc_element.get_container(element)`.
* `isDefinedBy` is `getattr(element, "IsDefinedBy", []) or []`.
* `representation`: `none` models `element.Representation` missing/falsy or the
  `.Representations` access raising (all collapse to `reps = []`). -/
structure Element where
  typeTag : String
  objectPlacement : Option (Option (ℚ × ℚ × ℚ))
  container : Option Storey
  isDefinedBy : List DefRel
  representation : Option (List Rep)
deriving DecidableEq, Repr

/-- One unit declaration inside the model's `IfcUnitAssignment`.
`unitType` is `getattr(u, "UnitType", None)`; `pfx` is
`getattr(u, "Prefix", None)`; `name` is `getattr(u, "Name", "")` rendered as a
string. -/
structure IfcUnit where
  unitType : Option String
  pfx : Option String
  name : String
deriving DecidableEq, Repr

/-- The loaded IFC model, as the black-box library presents it to the code:
`unitAssignment` is `model.by_type("IfcUnitAssignment")[0].Units` (`none` when
that lookup raises, e.g. no unit assignment exists); `buildingElements` is
`model.by_type("IfcBuildingElement")` in native enumeration order; `storeys` is
`model.by_type("IfcBuildingStorey")`. -/
structure Model where
  unitAssignment : Option (List IfcUnit)
  buildingElements : List Element
  storeys : List Storey
deriving DecidableEq, Repr

/-! ## `_get_element_location` -/

/-- `_get_element_location`: returns the placement coordinates or `None`. -/
def getElementLocation (e : Element) : Option (ℚ × ℚ × ℚ) :=
  match e.objectPlacement with
  | some res => res
  | none => none

/-! ## `_get_element_level` -/

/-- `_get_element_level`: `(storey.Name, float(storey.Elevation) or default)`
when the container is an `IfcBuildingStorey`, else `(None, 0.0)`. -/
def getElementLevel (e : Element) : Option String × ℚ :=
  match e.container with
  | some st =>
      if st.isBuildingStorey then
        (st.name, match st.elevation with | some ev => ev | none => 0)
      else (none, 0)
  | none => (none, 0)

/-! ## `_get_unit` -/

/-- The loop body of `_get_unit`: find the first unit whose `UnitType` is
`"LENGTHUNIT"` and render `f"{prefix or ''}{name}"`. -/
def findLengthUnit : List IfcUnit → Option String
  | [] => none
  | u :: us =>
      if u.unitType = some "LENGTHUNIT" then
        some ((match u.pfx with | some p => if p = "" then "" else p | none => "") ++ u.name)
      else findLengthUnit us

/-- `_get_unit`: `none` when the `IfcUnitAssignment` lookup raises, otherwise
the first length unit's rendered name (or `none` if the loop finds none). -/
def getUnit (m : Model) : Option String :=
  match m.unitAssignment with
  | some units => findLengthUnit units
  | none => none

/-! ## `_get_element_quantity` -/

/-- The per-entry test inside the quantity loop: volume wins over area over
length for a single entry; a raising value extraction (`value = none`) or a
non-matching kind yields `none` (the code's `continue`). -/
def qtyMatch (q : Qty) : Option (ℕ × ℚ) :=
  match q.kind, q.value with
  | .volume, some v => some (3, v)
  | .area, some v => some (2, v)
  | .length, some v => some (1, v)
  | _, _ => none

/-- The inner `for q in rel_def.Quantities` loop: first successful match. -/
def scanQuantities : List Qty → Option (ℕ × ℚ)
  | [] => none
  | q :: qs =>
      match qtyMatch q with
      | some r => some r
      | none => scanQuantities qs

/-- Truthiness of `getattr(rel_def, "Quantities", None)`. -/
def quantitiesTruthy (o : Option (List Qty)) : Bool :=
  match o with
  | some qs => !qs.isEmpty
  | none => false

/-- The outer `for definition in element.IsDefinedBy` loop: for each relation
whose `RelatingDefinition` is an `IfcElementQuantity` with truthy `Quantities`,
scan its entries; return on the first hit anywhere, else fall through. -/
def scanDefs : List DefRel → Option (ℕ × ℚ)
  | [] => none
  | d :: ds =>
      match d.relatingDefinition with
      | none => scanDefs ds
      | some rd =>
          if rd.isElementQuantity && quantitiesTruthy rd.quantities then
            match scanQuantities (rd.quantities.getD []) with
            | some r => some r
            | none => scanDefs ds
          else scanDefs ds

/-- The per-representation test inside the geometry loop: 2D-ish kinds first,
then 3D-ish kinds, for this one representation. -/
def repMatch (r : Rep) : Option (ℕ × ℚ) :=
  match r.representationType with
  | some t =>
      if t ∈ ["Curve2D", "GeometricCurveSet", "Annotation2D"] then some (2, 1)
      else if t ∈ ["SurfaceModel", "Brep", "AdvancedBrep", "SweptSolid", "CSG",
                   "MappedRepresentation", "Tessellation"] then some (3, 1)
      else none
  | none => none

/-- The `for rep in reps` loop: first representation matching either kind list. -/
def scanReps : List Rep → Option (ℕ × ℚ)
  | [] => none
  | r :: rs =>
      match repMatch r with
      | some res => some res
      | none => scanReps rs

/-- `_get_element_quantity`: quantity-record path, then geometry fallback,
then the default `(1, 1)`. -/
def getElementQuantity (e : Element) : ℕ × ℚ :=
  match scanDefs e.isDefinedBy with
  | some r => r
  | none =>
      match scanReps (e.representation.getD []) with
      | some r => r
      | none => (1, 1)

/-! ## `get_elements` -/

/-- The hardcoded path of the IFC file. -/
def IFC_FILE_PATH : String := "C:/base_structure.ifc"

/-- Python `x or 0.0` on a float: `0.0` is falsy, so this is the identity. -/
def pyOrZero (q : ℚ) : ℚ := if q = 0 then 0 else q

/-- Python `s or t` on strings: `""` is falsy. -/
def pyOrStr (s t : String) : String := if s = "" then t else s

/-- Python truthiness of an optional string (`if level_name:` / `if unit`). -/
def pyTruthy : Option String → Bool
  | some s => !(s = "")
  | none => false

/-- `str.upper()` for the ASCII unit names in play: per-character uppercase. -/
def pyUpper (s : String) : String := String.mk (s.data.map Char.toUpper)

/-- `f"{(unit or 'METER').upper()}^{dim}" if unit else None`. -/
def unitWithDim (unit : Option String) (dim : ℕ) : Option String :=
  if pyTruthy unit then
    some (pyUpper (pyOrStr (unit.getD "") "METER") ++ "^" ++ toString dim)
  else none

/-- The per-element `data` dictionary appended to `elements`.  All numeric
fields are nullable per the JSON contract. -/
structure ElementRecord where
  x : Option ℚ
  y : Option ℚ
  z_relative_to_level : Option ℚ
  real_world_z : Option ℚ
  level_name : Option String
  level_elevation : ℚ
  type : String
  unit : Option String
  value : Option ℚ
deriving DecidableEq, Repr

/-- Builds the `data` record for one element (lines 111-145 of the handler).
`value` from `_get_element_quantity` is always a number, hence always `some`. -/
def mkRecord (unit : Option String) (e : Element) : ElementRecord :=
  let loc := getElementLocation e
  let lvl := getElementLevel e
  let dq := getElementQuantity e
  match loc with
  | some (lx, ly, lz) =>
      { x := some lx, y := some ly, z_relative_to_level := some lz
        real_world_z := some (pyOrZero lvl.2 + pyOrZero lz)
        level_name := lvl.1, level_elevation := lvl.2
        type := e.typeTag, unit := unitWithDim unit dq.1, value := some dq.2 }
  | none =>
      { x := none, y := none, z_relative_to_level := none
        real_world_z := none
        level_name := lvl.1, level_elevation := lvl.2
        type := e.typeTag, unit := unitWithDim unit dq.1, value := some dq.2 }

/-- The loop state of the handler: the growing `elements` list, the insertion
order of `type_summary`'s keys, and the three dictionaries as total lookup
functions (`defaultdict(int)`, `type_dim`, `defaultdict(lambda: defaultdict(float))`). -/
structure AggState where
  recs : List ElementRecord
  typeKeys : List String
  counts : String → ℕ
  typeDim : String → Option ℕ
  totals : String → String → ℚ

/-- The state before the loop. -/
def initState : AggState :=
  { recs := [], typeKeys := [], counts := fun _ => 0
    typeDim := fun _ => none, totals := fun _ _ => 0 }

/-- The level name of an element as the totals guard on line 132 sees it:
`none` when the name is `None` or the empty string (both falsy in
`if level_name:`). -/
def truthyLevelName (e : Element) : Option String :=
  match (getElementLevel e).1 with
  | some s => if s = "" then none else some s
  | none => none

/-- One iteration of `for element in model.by_type("IfcBuildingElement")`.
`value is not None` on line 132 is always true (the extractor returns a float),
so the totals guard reduces to the truthiness of `level_name`.  The three
dictionary updates (`type_summary[elem_type] += 1`,
`if elem_type not in type_dim: type_dim[elem_type] = dim`,
`totals[elem_type][level_name] += value`) are written as pointwise functional
updates. -/
def processElement (unit : Option String) (st : AggState) (e : Element) : AggState :=
  let elemType := e.typeTag
  let dq := getElementQuantity e
  { recs := st.recs ++ [mkRecord unit e]
    typeKeys := if elemType ∈ st.typeKeys then st.typeKeys else st.typeKeys ++ [elemType]
    counts := fun t => if elemType = t then st.counts t + 1 else st.counts t
    typeDim := fun t =>
      if st.typeDim elemType = none ∧ elemType = t then some dq.1 else st.typeDim t
    totals := fun t n =>
      if elemType = t ∧ truthyLevelName e = some n then st.totals t n + dq.2
      else st.totals t n }

/-- `float(lv.Elevation) if lv.Elevation else 0.0` (truthiness: `None` and
`0.0` both give `0.0`). -/
def storeyElev (lv : Storey) : ℚ :=
  match lv.elevation with
  | some ev => if ev = 0 then 0 else ev
  | none => 0

/-- The comparison underlying `sorted(..., key=lambda x: x[1], reverse=True)`:
a stable sort that puts larger elevations first. -/
def elevGE (a b : Option String × ℚ) : Prop := b.2 ≤ a.2

instance : DecidableRel elevGE := fun a b => inferInstanceAs (Decidable (b.2 ≤ a.2))

instance : IsTotal (Option String × ℚ) elevGE := ⟨fun a b => le_total b.2 a.2⟩

instance : IsTrans (Option String × ℚ) elevGE := ⟨fun _ _ _ h₁ h₂ => le_trans h₂ h₁⟩

/-- `levels_sorted`: Python's `sorted` is a stable sort; with `reverse=True` it
is the stable sort for the "greater or equal elevation" preorder, modelled by
insertion sort (stable for the same preorder, hence extensionally equal). -/
def sortLevelsDesc (l : List (Option String × ℚ)) : List (Option String × ℚ) :=
  List.insertionSort elevGE l

/-- One entry of the grouped `summary` list.  `totals` is the per-level
`defaultdict(float)` for this type, as a total lookup defaulting to `0`. -/
structure SummaryEntry where
  type : String
  unit : Option String
  count : ℕ
  totals : String → ℚ

/-- The response payload of `GET /api/elements`. -/
structure Response where
  elements : List ElementRecord
  summary : List SummaryEntry
  levels : List (Option String)

/-- The loop state after the whole element pass. -/
def aggOf (m : Model) : AggState :=
  m.buildingElements.foldl (processElement (getUnit m)) initState

/-- One entry of the grouped summary: `type_dim.get(elem_type, 1)` and the
per-type slices of `type_summary` and `totals`. -/
def groupOf (m : Model) (t : String) : SummaryEntry :=
  { type := t
    unit := unitWithDim (getUnit m) (((aggOf m).typeDim t).getD 1)
    count := (aggOf m).counts t
    totals := (aggOf m).totals t }

/-- The body of `get_elements` once the model is known to be loaded. -/
def getElements (m : Model) : Response :=
  { elements := (aggOf m).recs
    summary := (aggOf m).typeKeys.map (groupOf m)
    levels := (sortLevelsDesc (m.storeys.map (fun lv => (lv.name, storeyElev lv)))).map Prod.fst }

/-- The HTTP-level failure the handler can signal. -/
inductive HttpError where
  | notFound (detail : String)
deriving DecidableEq, Repr

/-- The process state at request time: the module-level `model` global, loaded
once at startup (`None` when the file was absent). -/
structure ServerState where
  model : Option Model
deriving DecidableEq, Repr

/-- The full `get_elements` handler: raises 404 naming the configured path when
the model is unavailable, otherwise computes the response.  The handler only
reads the state, so it returns it unchanged. -/
def handleGetElements (s : ServerState) : Except HttpError Response × ServerState :=
  match s.model with
  | none => (.error (.notFound ("IFC file not found: " ++ IFC_FILE_PATH)), s)
  | some m => (.ok (getElements m), s)

/-! ## Loop lemmas -/

theorem processElement_recs (u : Option String) (st : AggState) (e : Element) :
    (processElement u st e).recs = st.recs ++ [mkRecord u e] := rfl

theorem processElement_counts (u : Option String) (st : AggState) (e : Element)
    (t : String) :
    (processElement u st e).counts t =
      st.counts t + (if e.typeTag = t then 1 else 0) := by
  simp only [processElement]
  by_cases h : e.typeTag = t <;> simp [h]

theorem processElement_totals (u : Option String) (st : AggState) (e : Element)
    (t n : String) :
    (processElement u st e).totals t n =
      st.totals t n +
        (if e.typeTag = t ∧ truthyLevelName e = some n then (getElementQuantity e).2 else 0) := by
  simp only [processElement]
  by_cases h : e.typeTag = t ∧ truthyLevelName e = some n <;> simp [h]

theorem processElement_typeKeys_mono (u : Option String) (st : AggState) (e : Element)
    (t : String) (h : t ∈ st.typeKeys) :
    t ∈ (processElement u st e).typeKeys := by
  simp only [processElement]
  split <;> simp [h]

theorem processElement_typeKeys_self (u : Option String) (st : AggState) (e : Element) :
    e.typeTag ∈ (processElement u st e).typeKeys := by
  simp only [processElement]
  split <;> simp_all

theorem processElement_typeDim_some (u : Option String) (st : AggState) (e : Element)
    (t : String) (d : ℕ) (h : st.typeDim t = some d) :
    (processElement u st e).typeDim t = some d := by
  simp only [processElement]
  by_cases ht : e.typeTag = t
  · subst ht; simp [h]
  · simp [ht, h]

theorem processElement_typeDim_other (u : Option String) (st : AggState) (e : Element)
    (t : String) (ht : e.typeTag ≠ t) :
    (processElement u st e).typeDim t = st.typeDim t := by
  simp only [processElement]
  simp [ht]

theorem processElement_typeDim_first (u : Option String) (st : AggState) (e : Element)
    (h : st.typeDim e.typeTag = none) :
    (processElement u st e).typeDim e.typeTag = some (getElementQuantity e).1 := by
  simp only [processElement]
  simp [h]

theorem foldl_recs (u : Option String) (l : List Element) (st : AggState) :
    (l.foldl (processElement u) st).recs = st.recs ++ l.map (mkRecord u) := by
  induction l generalizing st with
  | nil => simp
  | cons e l ih => simp [List.foldl_cons, ih, processElement_recs]

theorem foldl_counts (u : Option String) (l : List Element) (st : AggState) (t : String) :
    (l.foldl (processElement u) st).counts t =
      st.counts t + (l.filter (fun e => e.typeTag = t)).length := by
  induction l generalizing st with
  | nil => simp
  | cons e l ih =>
      simp only [List.foldl_cons, ih, processElement_counts, List.filter_cons]
      by_cases h : e.typeTag = t
      · simp [h]
        omega
      · simp [h]

theorem foldl_totals (u : Option String) (l : List Element) (st : AggState) (t n : String) :
    (l.foldl (processElement u) st).totals t n =
      st.totals t n +
        ((l.filter (fun e => e.typeTag = t ∧ truthyLevelName e = some n)).map
          (fun e => (getElementQuantity e).2)).sum := by
  induction l generalizing st with
  | nil => simp
  | cons e l ih =>
      simp only [List.foldl_cons, ih, processElement_totals, List.filter_cons]
      by_cases h : e.typeTag = t ∧ truthyLevelName e = some n
      · simp [h]; ring
      · simp [h]

theorem foldl_typeKeys_mono (u : Option String) (l : List Element) (st : AggState)
    (t : String) (h : t ∈ st.typeKeys) :
    t ∈ (l.foldl (processElement u) st).typeKeys := by
  induction l generalizing st with
  | nil => exact h
  | cons e l ih => exact ih _ (processElement_typeKeys_mono u st e t h)

theorem foldl_typeKeys_mem (u : Option String) (l : List Element) (st : AggState)
    (e : Element) (he : e ∈ l) :
    e.typeTag ∈ (l.foldl (processElement u) st).typeKeys := by
  induction l generalizing st with
  | nil => cases he
  | cons e' l ih =>
      rcases List.mem_cons.mp he with rfl | he'
      · exact foldl_typeKeys_mono u l _ _ (processElement_typeKeys_self u st e)
      · exact ih _ he'

theorem foldl_typeDim_some (u : Option String) (l : List Element) (st : AggState)
    (t : String) (d : ℕ) (h : st.typeDim t = some d) :
    (l.foldl (processElement u) st).typeDim t = some d := by
  induction l generalizing st with
  | nil => exact h
  | cons e l ih => exact ih _ (processElement_typeDim_some u st e t d h)

theorem foldl_typeDim_notin (u : Option String) (l : List Element) (st : AggState)
    (t : String) (h : ∀ e ∈ l, e.typeTag ≠ t) :
    (l.foldl (processElement u) st).typeDim t = st.typeDim t := by
  induction l generalizing st with
  | nil => rfl
  | cons e l ih =>
      rw [List.foldl_cons, ih _ (fun e' he' => h e' (List.mem_cons_of_mem _ he'))]
      exact processElement_typeDim_other u st e t (h e (List.mem_cons_self e l))

theorem mem_summary (m : Model) (g : SummaryEntry)
    (hg : g ∈ (getElements m).summary) :
    g.type ∈ (aggOf m).typeKeys ∧ g = groupOf m g.type := by
  simp only [getElements, List.mem_map] at hg
  obtain ⟨t, ht, rfl⟩ := hg
  exact ⟨ht, rfl⟩

/-! ## Scan lemmas for the extractor -/

/-- The entries the quantity-record path scans, in scan order: the
concatenation of the `Quantities` of every `IsDefinedBy` relation whose
`RelatingDefinition` resolves to an `IfcElementQuantity` with a truthy
quantity list. -/
def eligibleQuantities : List DefRel → List Qty
  | [] => []
  | d :: ds =>
      (match d.relatingDefinition with
       | some rd =>
           if rd.isElementQuantity && quantitiesTruthy rd.quantities then
             rd.quantities.getD []
           else []
       | none => []) ++ eligibleQuantities ds

theorem scanQuantities_append (a b : List Qty) :
    scanQuantities (a ++ b) =
      match scanQuantities a with
      | some r => some r
      | none => scanQuantities b := by
  induction a with
  | nil => simp [scanQuantities]
  | cons q qs ih =>
      simp only [List.cons_append, scanQuantities]
      cases qtyMatch q <;> simp [ih]

theorem scanDefs_eq_eligible (l : List DefRel) :
    scanDefs l = scanQuantities (eligibleQuantities l) := by
  induction l with
  | nil => rfl
  | cons d ds ih =>
      simp only [scanDefs, eligibleQuantities]
      obtain hd | ⟨rd, hd⟩ := Option.eq_none_or_eq_some d.relatingDefinition <;>
        simp only [hd]
      · simpa using ih
      · by_cases hc : rd.isElementQuantity && quantitiesTruthy rd.quantities
        · rw [if_pos hc, if_pos hc, scanQuantities_append]
          cases scanQuantities (rd.quantities.getD []) <;> simp [ih]
        · rw [if_neg hc, if_neg hc]
          simpa using ih

theorem scanQuantities_first (l₁ l₂ : List Qty) (q : Qty) (res : ℕ × ℚ)
    (hskip : ∀ q' ∈ l₁, qtyMatch q' = none) (hq : qtyMatch q = some res) :
    scanQuantities (l₁ ++ q :: l₂) = some res := by
  induction l₁ with
  | nil => simp [scanQuantities, hq]
  | cons a l ih =>
      simp only [List.cons_append, scanQuantities]
      rw [hskip a (List.mem_cons_self a l)]
      simpa using ih fun q' h => hskip q' (List.mem_cons_of_mem _ h)

theorem scanReps_first (l₁ l₂ : List Rep) (r : Rep) (res : ℕ × ℚ)
    (hskip : ∀ r' ∈ l₁, repMatch r' = none) (hr : repMatch r = some res) :
    scanReps (l₁ ++ r :: l₂) = some res := by
  induction l₁ with
  | nil => simp [scanReps, hr]
  | cons a l ih =>
      simp only [List.cons_append, scanReps]
      rw [hskip a (List.mem_cons_self a l)]
      simpa using ih fun r' h => hskip r' (List.mem_cons_of_mem _ h)

/-! ## Claim C1 -/

/-- An element with no quantity records, whose representation list has a
3D-ish entry (`SweptSolid`) before a 2D-ish one (`Curve2D`). -/
def c1Element : Element :=
  { typeTag := "IfcWall"
    objectPlacement := none
    container := none
    isDefinedBy := []
    representation := some [⟨some "SweptSolid"⟩, ⟨some "Curve2D"⟩] }

/-- C1 counterexample: `c1Element` has no quantity-record match and one of its
representations is the 2D-ish `Curve2D`, so the claim says the extractor
returns `(2, 1)`; the code scans representation by representation and hits the
3D-ish `SweptSolid` first, returning `(3, 1)`. -/
theorem c1_counterexample :
    scanDefs c1Element.isDefinedBy = none ∧
    (c1Element.representation.getD []).any
      (fun r => r.representationType = some "Curve2D") = true ∧
    getElementQuantity c1Element = (3, 1) := by
  refine ⟨rfl, by decide, by decide⟩

/-- C1 (amended): on the geometry-fallback path the representations are
scanned in order and the first representation whose declared type is 2D-ish or
3D-ish decides the result — a 2D-ish first hit yields `(2, 1)`, a 3D-ish first
hit yields `(3, 1)`; a 2D-ish representation occurring after a 3D-ish one does
not override it. -/
theorem c1_geometry_fallback (e : Element) (l₁ l₂ : List Rep) (r : Rep) (t : String)
    (hq : scanDefs e.isDefinedBy = none)
    (hreps : e.representation.getD [] = l₁ ++ r :: l₂)
    (hskip : ∀ r' ∈ l₁, repMatch r' = none)
    (ht : r.representationType = some t) :
    (t ∈ ["Curve2D", "GeometricCurveSet", "Annotation2D"] →
      getElementQuantity e = (2, 1)) ∧
    (t ∈ ["SurfaceModel", "Brep", "AdvancedBrep", "SweptSolid", "CSG",
          "MappedRepresentation", "Tessellation"] →
      getElementQuantity e = (3, 1)) := by
  constructor
  · intro h2
    have hm : repMatch r = some (2, 1) := by
      simp [repMatch, ht, h2]
    simp [getElementQuantity, hq, hreps, scanReps_first l₁ l₂ r (2, 1) hskip hm]
  · intro h3
    have hnot2 : t ∉ ["Curve2D", "GeometricCurveSet", "Annotation2D"] := by
      fin_cases h3 <;> decide
    have hm : repMatch r = some (3, 1) := by
      simp [repMatch, ht, hnot2, h3]
    simp [getElementQuantity, hq, hreps, scanReps_first l₁ l₂ r (3, 1) hskip hm]

/-- Witness for C1 (amended): an element whose first matching representation
is the 3D-ish `SweptSolid`, preceded by a non-matching representation. -/
def c1wElement : Element :=
  { typeTag := "IfcWall"
    objectPlacement := none
    container := none
    isDefinedBy := []
    representation := some [⟨some "BoundingBox"⟩, ⟨some "SweptSolid"⟩] }

theorem c1_witness : getElementQuantity c1wElement = (3, 1) :=
  (c1_geometry_fallback c1wElement [⟨some "BoundingBox"⟩] [] ⟨some "SweptSolid"⟩
      "SweptSolid" rfl rfl (by decide) rfl).2 (by decide)

/-! ## Claim C2 -/

/-- C2: when the quantity-record path finds a first matching entry (scanning
element-quantity sets and their entries in original order, skipping entries
that do not match), that entry decides the result: a volume entry yields
`(3, value)`, an area entry `(2, value)`, a length entry `(1, value)` — and the
geometry-fallback path is never consulted (the result is independent of the
element's representations). -/
theorem c2_first_match_wins (e : Element) (l₁ l₂ : List Qty) (q : Qty) (v : ℚ)
    (hscan : eligibleQuantities e.isDefinedBy = l₁ ++ q :: l₂)
    (hskip : ∀ q' ∈ l₁, qtyMatch q' = none)
    (hv : q.value = some v) (hk : q.kind ≠ .other) :
    (q.kind = .volume → getElementQuantity e = (3, v)) ∧
    (q.kind = .area → getElementQuantity e = (2, v)) ∧
    (q.kind = .length → getElementQuantity e = (1, v)) ∧
    (∀ reps, getElementQuantity { e with representation := reps } =
      getElementQuantity e) := by
  have hdefs : ∀ d v', qtyMatch q = some (d, v') →
      scanDefs e.isDefinedBy = some (d, v') := by
    intro d v' hm
    rw [scanDefs_eq_eligible, hscan]
    exact scanQuantities_first l₁ l₂ q (d, v') hskip hm
  have hM : ∃ d, qtyMatch q = some (d, v) := by
    cases hq : q.kind with
    | volume => exact ⟨3, by simp [qtyMatch, hq, hv]⟩
    | area => exact ⟨2, by simp [qtyMatch, hq, hv]⟩
    | length => exact ⟨1, by simp [qtyMatch, hq, hv]⟩
    | other => exact absurd hq hk
  obtain ⟨d, hm⟩ := hM
  have hsd := hdefs d v hm
  refine ⟨?_, ?_, ?_, ?_⟩
  · intro hq
    have hd3 : 3 = d := by simpa [qtyMatch, hq, hv] using hm
    subst hd3
    simp [getElementQuantity, hsd]
  · intro hq
    have hd2 : 2 = d := by simpa [qtyMatch, hq, hv] using hm
    subst hd2
    simp [getElementQuantity, hsd]
  · intro hq
    have hd1 : 1 = d := by simpa [qtyMatch, hq, hv] using hm
    subst hd1
    simp [getElementQuantity, hsd]
  · intro reps
    have hsd' : scanDefs ({ e with representation := reps } : Element).isDefinedBy =
        some (d, v) := hsd
    simp [getElementQuantity, hsd, hsd']

/-- Witness element for C2: one element-quantity set listing a length entry
(value 5) before a volume entry (value 7). -/
def c2wElement : Element :=
  { typeTag := "IfcBeam"
    objectPlacement := none
    container := none
    isDefinedBy :=
      [⟨some ⟨true, some [⟨.length, some 5⟩, ⟨.volume, some 7⟩]⟩⟩]
    representation := some [⟨some "SweptSolid"⟩] }

theorem c2_witness :
    getElementQuantity c2wElement = (1, 5) ∧
    getElementQuantity { c2wElement with representation := none } =
      getElementQuantity c2wElement := by
  have h := c2_first_match_wins c2wElement [] [⟨.volume, some 7⟩]
    ⟨.length, some 5⟩ 5 rfl (by intro q' h'; cases h') rfl (by decide)
  exact ⟨h.2.2.1 rfl, h.2.2.2 none⟩

/-! ## Claim C3 -/

/-- C3: the dimension in a type's summary unit string is the dimension the
extractor computes for the first element of that type in enumeration order —
every summary entry for that type renders its unit with that cached dimension,
whatever later elements of the type compute. -/
theorem c3_first_element_dim (m : Model) (l₁ l₂ : List Element) (e₀ : Element)
    (g : SummaryEntry)
    (hsplit : m.buildingElements = l₁ ++ e₀ :: l₂)
    (hfirst : ∀ e' ∈ l₁, e'.typeTag ≠ e₀.typeTag)
    (hg : g ∈ (getElements m).summary) (hgt : g.type = e₀.typeTag) :
    g.unit = unitWithDim (getUnit m) (getElementQuantity e₀).1 := by
  have hdim : (aggOf m).typeDim e₀.typeTag = some (getElementQuantity e₀).1 := by
    have h1 : (l₁.foldl (processElement (getUnit m)) initState).typeDim e₀.typeTag =
        none := by
      rw [foldl_typeDim_notin _ _ _ _ hfirst]
      rfl
    rw [aggOf, hsplit, List.foldl_append, List.foldl_cons]
    exact foldl_typeDim_some _ _ _ _ _ (processElement_typeDim_first _ _ _ h1)
  obtain ⟨-, hgeq⟩ := mem_summary m g hg
  rw [hgeq]
  simp only [groupOf, hgt, hdim, Option.getD_some]

/-- Witness model for C3: two walls; the first has a volume quantity
(dimension 3), the second a length quantity (dimension 1).  The summary's unit
uses dimension 3. -/
def c3wVolElem : Element :=
  { typeTag := "IfcWall", objectPlacement := none, container := none
    isDefinedBy := [⟨some ⟨true, some [⟨.volume, some 7⟩]⟩⟩]
    representation := none }

def c3wLenElem : Element :=
  { typeTag := "IfcWall", objectPlacement := none, container := none
    isDefinedBy := [⟨some ⟨true, some [⟨.length, some 5⟩]⟩⟩]
    representation := none }

def c3wModel : Model :=
  { unitAssignment := some [⟨some "LENGTHUNIT", none, "metre"⟩]
    buildingElements := [c3wVolElem, c3wLenElem]
    storeys := [] }

theorem c3_witness :
    (groupOf c3wModel "IfcWall").unit =
        unitWithDim (getUnit c3wModel) (getElementQuantity c3wVolElem).1 ∧
    (getElementQuantity c3wLenElem).1 = 1 ∧
    (groupOf c3wModel "IfcWall").unit = some "METRE^3" := by
  refine ⟨?_, by decide, by decide⟩
  refine c3_first_element_dim c3wModel [] [c3wLenElem] c3wVolElem
    (groupOf c3wModel "IfcWall") rfl (by intro e' h'; cases h') ?_ rfl
  have hs : (getElements c3wModel).summary = [groupOf c3wModel "IfcWall"] := rfl
  rw [hs]
  exact List.mem_singleton.mpr rfl

/-! ## Claim C4 -/

/-- A storey whose name is the empty string: non-null, yet falsy in the
totals guard `if value is not None and level_name:`. -/
def c4Storey : Storey :=
  { isBuildingStorey := true, name := some "", elevation := some 2 }

/-- An element contained in `c4Storey` whose extracted value is `1` (default
path of the extractor). -/
def c4Element : Element :=
  { typeTag := "IfcWall", objectPlacement := none, container := some c4Storey
    isDefinedBy := [], representation := none }

def c4Model : Model :=
  { unitAssignment := none, buildingElements := [c4Element], storeys := [c4Storey] }

/-- C4 counterexample: the sole element has the non-null level name `""` and
the non-null value `1`, so the claim says the `("IfcWall", "")` total is the
sum `1`; the code's truthiness test skips empty level names, so the total is
`0` (while the count is still `1`). -/
theorem c4_counterexample :
    ((getElements c4Model).elements.map fun r => (r.type, r.level_name, r.value)) =
      [("IfcWall", some "", some 1)] ∧
    ((getElements c4Model).summary.map fun g => (g.type, g.count, g.totals "")) =
      [("IfcWall", 1, 0)] := by
  refine ⟨by decide, by decide⟩

/-- C4 (amended): for every summary entry and level name `n`, the recorded
total is the exact sum of extracted values over exactly those elements whose
type matches and whose level name is non-null **and non-empty** and equal to
`n`; every element of the type (null/empty level name included) still
increments the count. -/
theorem c4_totals_sum (m : Model) (g : SummaryEntry)
    (hg : g ∈ (getElements m).summary) (n : String) :
    g.totals n =
      ((m.buildingElements.filter fun e =>
          e.typeTag = g.type ∧ truthyLevelName e = some n).map
        fun e => (getElementQuantity e).2).sum ∧
    g.count = (m.buildingElements.filter fun e => e.typeTag = g.type).length := by
  obtain ⟨-, hgeq⟩ := mem_summary m g hg
  rw [hgeq]
  constructor
  · simp only [groupOf, aggOf]
    rw [foldl_totals]
    simp [initState]
  · simp only [groupOf, aggOf]
    rw [foldl_counts]
    simp [initState]

/-- Witness model for C4 (amended): two walls on level "L1" (values 1 each,
default extractor path) and one wall with no level. -/
def c4wStorey : Storey :=
  { isBuildingStorey := true, name := some "L1", elevation := some 3 }

def c4wElemA : Element :=
  { typeTag := "IfcWall", objectPlacement := none, container := some c4wStorey
    isDefinedBy := [⟨some ⟨true, some [⟨.volume, some 7⟩]⟩⟩]
    representation := none }

def c4wElemB : Element :=
  { typeTag := "IfcWall", objectPlacement := none, container := some c4wStorey
    isDefinedBy := [⟨some ⟨true, some [⟨.area, some 4⟩]⟩⟩]
    representation := none }

def c4wElemC : Element :=
  { typeTag := "IfcWall", objectPlacement := none, container := none
    isDefinedBy := [⟨some ⟨true, some [⟨.length, some 9⟩]⟩⟩]
    representation := none }

def c4wModel : Model :=
  { unitAssignment := none
    buildingElements := [c4wElemA, c4wElemB, c4wElemC]
    storeys := [c4wStorey] }

theorem c4_witness :
    (groupOf c4wModel "IfcWall").totals "L1" =
      ((c4wModel.buildingElements.filter fun e =>
          e.typeTag = (groupOf c4wModel "IfcWall").type ∧
            truthyLevelName e = some "L1").map
        fun e => (getElementQuantity e).2).sum ∧
    (groupOf c4wModel "IfcWall").count =
      (c4wModel.buildingElements.filter fun e =>
        e.typeTag = (groupOf c4wModel "IfcWall").type).length ∧
    (groupOf c4wModel "IfcWall").totals "L1" = 11 ∧
    (groupOf c4wModel "IfcWall").count = 3 := by
  have hs : (getElements c4wModel).summary = [groupOf c4wModel "IfcWall"] := rfl
  have h := c4_totals_sum c4wModel (groupOf c4wModel "IfcWall")
    (by rw [hs]; exact List.mem_singleton.mpr rfl) "L1"
  have hm : ((c4wModel.buildingElements.filter fun e =>
      e.typeTag = (groupOf c4wModel "IfcWall").type ∧
        truthyLevelName e = some "L1").map
    fun e => (getElementQuantity e).2) = [7, 4] := by decide
  refine ⟨h.1, h.2, ?_, by decide⟩
  rw [h.1, hm]
  norm_num

/-! ## Claim C5 -/

theorem pyOrZero_eq (q : ℚ) : pyOrZero q = q := by
  by_cases h : q = 0 <;> simp [pyOrZero, h]

/-- C5: the record of every element with a resolvable placement and a
resolvable level satisfies `real_world_z = level_elevation + z_relative_to_level`
exactly; the record of an element without a resolvable placement has a null
`real_world_z`. -/
theorem c5_real_world_z (m : Model) (e : Element) (he : e ∈ m.buildingElements) :
    mkRecord (getUnit m) e ∈ (getElements m).elements ∧
    (∀ x y z st, getElementLocation e = some (x, y, z) → e.container = some st →
      st.isBuildingStorey = true →
      (mkRecord (getUnit m) e).z_relative_to_level = some z ∧
      (mkRecord (getUnit m) e).real_world_z =
        some ((mkRecord (getUnit m) e).level_elevation + z)) ∧
    (getElementLocation e = none → (mkRecord (getUnit m) e).real_world_z = none) := by
  refine ⟨?_, ?_, ?_⟩
  · simp only [getElements, aggOf]
    rw [foldl_recs]
    simp only [initState, List.nil_append]
    exact List.mem_map_of_mem (mkRecord (getUnit m)) he
  · intro x y z st hloc hcont hstorey
    simp [mkRecord, hloc, pyOrZero_eq]
  · intro hloc
    simp [mkRecord, hloc]

/-- Witness for C5: a wall placed at `(1, 2, 5)` inside a storey at
elevation `4`, giving `real_world_z = 9`. -/
def c5wStorey : Storey :=
  { isBuildingStorey := true, name := some "L2", elevation := some 4 }

def c5wElement : Element :=
  { typeTag := "IfcWall", objectPlacement := some (some (1, 2, 5))
    container := some c5wStorey, isDefinedBy := [], representation := none }

def c5wModel : Model :=
  { unitAssignment := none, buildingElements := [c5wElement], storeys := [c5wStorey] }

theorem c5_witness :
    ((mkRecord (getUnit c5wModel) c5wElement).z_relative_to_level = some 5 ∧
      (mkRecord (getUnit c5wModel) c5wElement).real_world_z =
        some ((mkRecord (getUnit c5wModel) c5wElement).level_elevation + 5)) ∧
    (mkRecord (getUnit c5wModel) c5wElement).level_elevation = 4 ∧
    (mkRecord (getUnit c5wModel) c5wElement).real_world_z = some 9 := by
  refine ⟨(c5_real_world_z c5wModel c5wElement
    (List.mem_singleton.mpr rfl)).2.1 1 2 5 c5wStorey rfl rfl rfl, rfl, ?_⟩
  simp [mkRecord, getElementLocation, getElementLevel, c5wElement, c5wStorey,
    pyOrZero_eq]
  norm_num

/-! ## Claim C6 -/

/-- Stability of the level sort: for every elevation, the storeys at that
elevation appear in the sorted list in their original relative order. -/
theorem sortLevelsDesc_filter (l : List (Option String × ℚ)) (e : ℚ) :
    (sortLevelsDesc l).filter (fun p => p.2 = e) = l.filter (fun p => p.2 = e) := by
  have hpw : (l.filter (fun p => p.2 = e)).Pairwise elevGE := by
    refine List.pairwise_of_forall_mem_list ?_
    intro a ha b hb
    have ha' := List.of_mem_filter ha
    have hb' := List.of_mem_filter hb
    simp only [decide_eq_true_eq] at ha' hb'
    simp [elevGE, ha', hb']
  have hsub : List.Sublist (l.filter (fun p => p.2 = e)) (sortLevelsDesc l) :=
    List.sublist_insertionSort hpw (List.filter_sublist l)
  have hself : (l.filter (fun p => p.2 = e)).filter (fun p => p.2 = e) =
      l.filter (fun p => p.2 = e) := by
    refine List.filter_eq_self.mpr ?_
    intro a ha
    exact (List.mem_filter.mp ha).2
  have hsub2 : List.Sublist (l.filter (fun p => p.2 = e))
      ((sortLevelsDesc l).filter (fun p => p.2 = e)) := by
    have := hsub.filter (fun p => p.2 = e)
    rwa [hself] at this
  have hperm : List.Perm ((sortLevelsDesc l).filter (fun p => p.2 = e))
      (l.filter (fun p => p.2 = e)) :=
    (List.perm_insertionSort elevGE l).filter _
  exact (hsub2.eq_of_length hperm.length_eq.symm).symm

/-- C6: the `levels` field is the storey name list sorted by elevation descending:
it is the first-component projection of a permutation of the (name, elevation)
pairs whose elevations are non-increasing, and storeys with equal elevation
keep their original relative order. -/
theorem c6_levels_order (m : Model) :
    (getElements m).levels =
      (sortLevelsDesc (m.storeys.map fun lv => (lv.name, storeyElev lv))).map
        Prod.fst ∧
    List.Perm (sortLevelsDesc (m.storeys.map fun lv => (lv.name, storeyElev lv)))
      (m.storeys.map fun lv => (lv.name, storeyElev lv)) ∧
    List.Pairwise (fun a b => b.2 ≤ a.2)
      (sortLevelsDesc (m.storeys.map fun lv => (lv.name, storeyElev lv))) ∧
    ∀ e : ℚ,
      (sortLevelsDesc (m.storeys.map fun lv => (lv.name, storeyElev lv))).filter
          (fun p => p.2 = e) =
        (m.storeys.map fun lv => (lv.name, storeyElev lv)).filter
          (fun p => p.2 = e) :=
  ⟨rfl, List.perm_insertionSort elevGE _, List.sorted_insertionSort elevGE _,
    fun e => sortLevelsDesc_filter _ e⟩

/-! ## Claim C7 -/

/-- C7: the handler is a pure function of the immutable server state — it
returns the state unchanged, so running it twice in a row yields identical
responses. -/
theorem c7_get_elements_pure (s : ServerState) :
    (handleGetElements s).2 = s ∧
    (handleGetElements ((handleGetElements s).2)).1 = (handleGetElements s).1 := by
  obtain ⟨mo⟩ := s
  cases mo <;> exact ⟨rfl, rfl⟩

/-! ## Claim C8 -/

theorem findLengthUnit_eq_none (us : List IfcUnit)
    (h : ∀ u ∈ us, u.unitType ≠ some "LENGTHUNIT") :
    findLengthUnit us = none := by
  induction us with
  | nil => rfl
  | cons u us ih =>
      rw [findLengthUnit, if_neg]
      · exact ih fun u' h' => h u' (List.mem_cons_of_mem _ h')
      · exact h u (List.mem_cons_self u us)

theorem getElements_elements (m : Model) :
    (getElements m).elements = m.buildingElements.map (mkRecord (getUnit m)) := by
  simp only [getElements, aggOf]
  rw [foldl_recs]
  simp [initState]

theorem mkRecord_unit (u : Option String) (e : Element) :
    (mkRecord u e).unit = unitWithDim u (getElementQuantity e).1 := by
  rcases hloc : getElementLocation e with - | ⟨x, y, z⟩ <;> simp [mkRecord, hloc]

theorem mkRecord_value (u : Option String) (e : Element) :
    (mkRecord u e).value = some (getElementQuantity e).2 := by
  rcases hloc : getElementLocation e with - | ⟨x, y, z⟩ <;> simp [mkRecord, hloc]

/-- C8: when no unit declaration has unit-type `"LENGTHUNIT"` (including the
case where the unit-assignment lookup fails and yields nothing), the unit
resolver returns `none`, and every per-element `unit` field and every summary
`unit` field in the response is null — the `'METER'` fallback literal is never
substituted on this path. -/
theorem c8_no_length_unit_null (m : Model)
    (h : ∀ u ∈ m.unitAssignment.getD [], u.unitType ≠ some "LENGTHUNIT") :
    getUnit m = none ∧
    (∀ r ∈ (getElements m).elements, r.unit = none) ∧
    (∀ g ∈ (getElements m).summary, g.unit = none) := by
  have hu : getUnit m = none := by
    rcases hua : m.unitAssignment with - | us
    · simp [getUnit, hua]
    · simp only [getUnit, hua]
      exact findLengthUnit_eq_none us fun u' hu' => h u' (by simpa [hua] using hu')
  refine ⟨hu, ?_, ?_⟩
  · intro r hr
    rw [getElements_elements] at hr
    obtain ⟨e, -, rfl⟩ := List.mem_map.mp hr
    rw [mkRecord_unit, hu]
    rfl
  · intro g hg
    obtain ⟨-, hgeq⟩ := mem_summary m g hg
    rw [hgeq]
    simp [groupOf, hu, unitWithDim, pyTruthy]

/-- Witness model for C8: a unit assignment that declares only an area unit,
plus one element. -/
def c8wElement : Element :=
  { typeTag := "IfcSlab", objectPlacement := none, container := none
    isDefinedBy := [], representation := none }

def c8wModel : Model :=
  { unitAssignment := some [⟨some "AREAUNIT", none, "SQUARE_METRE"⟩]
    buildingElements := [c8wElement]
    storeys := [] }

theorem c8_witness :
    getUnit c8wModel = none ∧
    (∀ r ∈ (getElements c8wModel).elements, r.unit = none) ∧
    (∀ g ∈ (getElements c8wModel).summary, g.unit = none) :=
  c8_no_length_unit_null c8wModel (by decide)

/-! ## Claim C9 -/

/-- C9: when the model failed to load, every request fails with the
not-found error carrying the configured file path, without extraction; when
the model is available, the handler always returns a complete `ok` response
(in this embedding every per-element lookup is total, mirroring the source's
local `try/except` absorption, so no per-element failure can surface). -/
theorem c9_unavailable_404 (s : ServerState) :
    (s.model = none →
      (handleGetElements s).1 =
        .error (.notFound ("IFC file not found: " ++ IFC_FILE_PATH))) ∧
    (∀ m, s.model = some m → (handleGetElements s).1 = .ok (getElements m)) := by
  obtain ⟨mo⟩ := s
  cases mo with
  | none =>
      refine ⟨fun _ => rfl, fun m hm => ?_⟩
      cases hm
  | some m0 =>
      refine ⟨fun hc => ?_, fun m hm => ?_⟩
      · cases hc
      · cases hm
        rfl

theorem c9_witness :
    (handleGetElements ⟨none⟩).1 =
      .error (.notFound ("IFC file not found: " ++ IFC_FILE_PATH)) :=
  (c9_unavailable_404 ⟨none⟩).1 rfl

/-! ## Claim C10 -/

/-- C10: the extractor returns a numeric value on every path, so every
element record's `value` field is non-null; consequently every element whose
level name is non-null and non-empty is among the elements summed into its
type's total for that level. -/
theorem c10_value_never_null (m : Model) :
    (∀ r ∈ (getElements m).elements, r.value.isSome = true) ∧
    (∀ e ∈ m.buildingElements, ∀ n, truthyLevelName e = some n →
      ∃ g ∈ (getElements m).summary, g.type = e.typeTag ∧
        e ∈ (m.buildingElements.filter fun e' =>
          e'.typeTag = e.typeTag ∧ truthyLevelName e' = some n) ∧
        g.totals n =
          ((m.buildingElements.filter fun e' =>
              e'.typeTag = e.typeTag ∧ truthyLevelName e' = some n).map
            fun e' => (getElementQuantity e').2).sum) := by
  constructor
  · intro r hr
    rw [getElements_elements] at hr
    obtain ⟨e, -, rfl⟩ := List.mem_map.mp hr
    rw [mkRecord_value]
    rfl
  · intro e he n hn
    refine ⟨groupOf m e.typeTag, ?_, rfl, ?_, ?_⟩
    · exact List.mem_map_of_mem _ (foldl_typeKeys_mem _ _ _ _ he)
    · exact List.mem_filter.mpr ⟨he, by simp [hn]⟩
    · simp only [groupOf, aggOf]
      rw [foldl_totals]
      simp [initState]

/-- Witness for C10: a door on level "L1". -/
def c10wStorey : Storey :=
  { isBuildingStorey := true, name := some "L1", elevation := some 0 }

def c10wElement : Element :=
  { typeTag := "IfcDoor", objectPlacement := none, container := some c10wStorey
    isDefinedBy := [], representation := none }

def c10wModel : Model :=
  { unitAssignment := none, buildingElements := [c10wElement]
    storeys := [c10wStorey] }

theorem c10_witness :
    (mkRecord (getUnit c10wModel) c10wElement).value.isSome = true ∧
    ∃ g ∈ (getElements c10wModel).summary, g.type = c10wElement.typeTag ∧
      c10wElement ∈ (c10wModel.buildingElements.filter fun e' =>
        e'.typeTag = c10wElement.typeTag ∧ truthyLevelName e' = some "L1") ∧
      g.totals "L1" =
        ((c10wModel.buildingElements.filter fun e' =>
            e'.typeTag = c10wElement.typeTag ∧ truthyLevelName e' = some "L1").map
          fun e' => (getElementQuantity e').2).sum := by
  constructor
  · exact (c10_value_never_null c10wModel).1 _
      (by rw [getElements_elements]
          exact List.mem_map_of_mem _ (List.mem_singleton.mpr rfl))
  · exact (c10_value_never_null c10wModel).2 c10wElement
      (List.mem_singleton.mpr rfl) "L1" (by decide)

end LeanConIFC
